import Mathlib

set_option maxHeartbeats 1600000

/-!
Verification of the contacts-book program (src/contacts-book.py).

The Python source is shallowly embedded below.  A store is modelled as an
ordered association list from phone strings to contact records, mirroring a
Python dict (insertion order preserved, unique keys).  The interactive
procedures are modelled as pure functions of the store and of the strings the
user would type, in the order the program reads them; printing and timing are
presentation only and are dropped.  Character classes of the validation
regexes are modelled over their ASCII ranges.
-/

namespace ContactsBook

/-- One contact record, as written by add_contact:
a dict with string fields "name" and "email". -/
structure Contact where
  name : String
  email : String
deriving DecidableEq

/-- The in-memory store: a Python dict phone -> contact, i.e. an ordered
association list with (in well-formed states) unique keys. -/
abbrev Store := List (String × Contact)

/-- The keys of the store, in iteration order. -/
def storeKeys (s : Store) : List String := s.map (fun pc => pc.1)

/-- Dict lookup: the value bound to the first occurrence of the key. -/
def lookupStore : Store → String → Option Contact
  | [], _ => none
  | (k, v) :: t, key => if k = key then some v else lookupStore t key

/-- Python dict.pop(key, None): drop the binding of the key, if present. -/
def erase_key : Store → String → Store
  | [], _ => []
  | (k, v) :: t, key => if k = key then t else (k, v) :: erase_key t key

/-- Python dict.pop(key): the bound value together with the remaining store,
or none (a KeyError) when the key is absent. -/
def dict_pop : Store → String → Option (Contact × Store)
  | [], _ => none
  | (k, v) :: t, key =>
    if k = key then some (v, t)
    else
      match dict_pop t key with
      | some (v2, rest) => some (v2, (k, v) :: rest)
      | none => none

/-- Python dict assignment contacts[key]["name"] = nm: rewrite the name field
of the binding of the key. -/
def set_name_field : Store → String → String → Store
  | [], _, _ => []
  | (k, v) :: t, key, nm =>
    if k = key then (k, { v with name := nm }) :: t
    else (k, v) :: set_name_field t key nm

/-- Python dict assignment contacts[key]["email"] = em. -/
def set_email_field : Store → String → String → Store
  | [], _, _ => []
  | (k, v) :: t, key, em =>
    if k = key then (k, { v with email := em }) :: t
    else (k, v) :: set_email_field t key em

/-- The characters str.strip removes (ASCII whitespace). -/
def pySpace (c : Char) : Bool :=
  c == ' ' || c == '\t' || c == '\n' || c == '\r' || c == '\x0b' || c == '\x0c'

/-- str.strip on the character list: drop leading and trailing whitespace. -/
def stripList (l : List Char) : List Char :=
  ((l.dropWhile pySpace).reverse.dropWhile pySpace).reverse

/-- Python str.strip(). -/
def pyStrip (s : String) : String := ⟨stripList s.data⟩

/-- Python str.lower() (ASCII letters). -/
def pyLower (s : String) : String := ⟨s.data.map Char.toLower⟩

/-- Python str.title(): a cased character is uppercased after an uncased
character and lowercased after a cased one.  The flag records whether the
previous character was cased. -/
def titleGo : Bool → List Char → List Char
  | _, [] => []
  | prevCased, c :: cs =>
    if c.isAlpha then
      (if prevCased then c.toLower else c.toUpper) :: titleGo true cs
    else
      c :: titleGo false cs

/-- Python str.title(). -/
def pyTitle (s : String) : String := ⟨titleGo false s.data⟩

/-- The regex piece d-braces-10: consume exactly n digits, returning the
remaining input, or none when a non-digit (or end of input) is hit early. -/
def matchDigits : Nat → List Char → Option (List Char)
  | 0, cs => some cs
  | _ + 1, [] => none
  | n + 1, c :: cs => if c.isDigit then matchDigits n cs else none

/-- PHONE_RE.match for the anchored pattern of ten digits: after the digits,
the dollar anchor of Python re accepts the end of the string or a single
final newline. -/
def is_valid_phone (p : String) : Bool :=
  match matchDigits 10 p.data with
  | none => false
  | some rest => rest == [] || rest == ['\n']

/-- The regex class of word characters (ASCII range of backslash-w). -/
def wordChar (c : Char) : Bool := c.isAlphanum || c == '_'

/-- The regex class of word characters, dot and hyphen. -/
def localChar (c : Char) : Bool := wordChar c || c == '.' || c == '-'

/-- EMAIL_RE without the end anchor: the pattern of one-or-more localChar,
at-sign, one-or-more localChar, dot, one-or-more wordChar matches the whole
input iff a decomposition at an at-sign position i and a later dot position j
exists.  Since no class contains the at-sign, scanning all split points is
exactly the backtracking search of the regex engine. -/
def emailCore (cs : List Char) : Bool :=
  (List.range cs.length).any fun i =>
    !(cs.take i).isEmpty && (cs.take i).all localChar && (cs.get? i == some '@') &&
      ((List.range (cs.drop (i + 1)).length).any fun j =>
        !((cs.drop (i + 1)).take j).isEmpty &&
          ((cs.drop (i + 1)).take j).all localChar &&
          ((cs.drop (i + 1)).get? j == some '.') &&
          !((cs.drop (i + 1)).drop (j + 1)).isEmpty &&
          ((cs.drop (i + 1)).drop (j + 1)).all wordChar)

/-- EMAIL_RE.match: the core pattern up to the dollar anchor, which accepts
the end of the string or a single final newline. -/
def pyMatchEmail (cs : List Char) : Bool :=
  emailCore cs || (cs.getLast? == some '\n' && emailCore cs.dropLast)

/-- is_valid_email: the regex matches or the string is empty. -/
def is_valid_email (e : String) : Bool :=
  pyMatchEmail e.data || e == ""

/-- A JSON value, as the json module parses it (numbers collapsed to Int,
which is irrelevant to the store format). -/
inductive Json where
  | null
  | bool (b : Bool)
  | num (n : Int)
  | str (s : String)
  | arr (elems : List Json)
  | obj (fields : List (String × Json))

/-- Python truthiness of a parsed JSON value, for the or-empty-dict guard. -/
def Json.truthy : Json → Bool
  | .null => false
  | .bool b => b
  | .num n => n != 0
  | .str s => s != ""
  | .arr l => !l.isEmpty
  | .obj l => !l.isEmpty

/-- The observable states of the persisted file, as safe_load_contacts can
encounter them: absent; present but the read raises IOError; present with
bytes that are not valid UTF-8 (the read raises UnicodeDecodeError); present
with text that is not valid JSON (json.load raises JSONDecodeError); or
present with text parsing to the JSON value j. -/
inductive FileState where
  | missing
  | ioError
  | notUtf8
  | badJson
  | jsonValue (j : Json)

/-- Result of safe_load_contacts: the returned dict, or an exception
propagating to the caller. -/
inductive LoadResult where
  | ok (fields : List (String × Json))
  | raised

/-- safe_load_contacts: missing file gives an empty dict; the except clause
catches JSONDecodeError and IOError only, so a UnicodeDecodeError from
decoding the file propagates; a parsed value goes through the or-empty-dict
guard and the isinstance dict check. -/
def safe_load_contacts : FileState → LoadResult
  | .missing => .ok []
  | .ioError => .ok []
  | .notUtf8 => .raised
  | .badJson => .ok []
  | .jsonValue j =>
    match (if j.truthy then j else Json.obj []) with
    | .obj fields => .ok fields
    | _ => .ok []

/-- The JSON object json.dump writes for one contact. -/
def contactJson (c : Contact) : Json :=
  .obj [("name", .str c.name), ("email", .str c.email)]

/-- The field list of the JSON object json.dump writes for a store. -/
def storeJsonFields (s : Store) : List (String × Json) :=
  s.map fun pc => (pc.1, contactJson pc.2)

/-- safe_save_contacts: the store is serialized and atomically replaces the
file, so the resulting file state parses back to exactly the written JSON
value (the json module parser inverts its serializer on the values it
writes). -/
def safe_save_contacts (s : Store) : FileState :=
  .jsonValue (.obj (storeJsonFields s))

/-- The failure cases of add_contact, in source order of their checks. -/
inductive AddErr where
  | EmptyName
  | EmptyPhone
  | InvalidPhone
  | DuplicatePhone
  | InvalidEmail
deriving DecidableEq

/-- Outcome of add_contact: a rejected input, or the updated store
(which the source then persists). -/
inductive AddResult where
  | err (e : AddErr)
  | ok (s : Store)
deriving DecidableEq

/-- add_contact, over the loaded store and the three strings the user types.
Each input is stripped as read; a new key is appended at the end of the dict;
the stored name is the stripped input, stripped again and title-cased. -/
def add_contact (contacts : Store) (nameI phoneI emailI : String) : AddResult :=
  let name := pyStrip nameI
  if name == "" then .err .EmptyName
  else
    let phone := pyStrip phoneI
    if phone == "" then .err .EmptyPhone
    else if !is_valid_phone phone then .err .InvalidPhone
    else if phone ∈ storeKeys contacts then .err .DuplicatePhone
    else
      let email := pyStrip emailI
      if email != "" && !is_valid_email email then .err .InvalidEmail
      else .ok (contacts ++ [(phone, ⟨pyTitle (pyStrip name), email⟩)])

/-- The query-validation failures shared by search, delete and update. -/
inductive QueryErr where
  | invalidPhone
  | nameRequired
  | invalidEmail
deriving DecidableEq

/-- Outcome of resolving a criterion and query to the matching entries. -/
inductive FindRes where
  | err (e : QueryErr)
  | ok (ms : List (String × Contact))
deriving DecidableEq

/-- The criterion branches shared verbatim by search_contact, delete_contact
and update_contact: crit 1 is by phone (query stripped, must be a valid
phone), crit 2 by name (stripped and lowercased, must be non-empty), any
other reached value (only 3 arrives here) by email.  The email gate is the
source expression: not is_valid_email(q) or not q == "", which rejects
every non-empty query. -/
def find_matches (contacts : Store) (crit q : String) : FindRes :=
  if crit == "1" then
    let qq := pyStrip q
    if !is_valid_phone qq then .err .invalidPhone
    else .ok (contacts.filter fun pc => pc.1 == qq)
  else if crit == "2" then
    let qq := pyLower (pyStrip q)
    if qq == "" then .err .nameRequired
    else .ok (contacts.filter fun pc => pyLower pc.2.name == qq)
  else
    let qq := pyLower (pyStrip q)
    if !is_valid_email qq || !(qq == "") then .err .invalidEmail
    else .ok (contacts.filter fun pc => pyLower pc.2.email == qq)

/-- Outcomes of search_contact. -/
inductive SearchOut where
  | noContacts
  | invalidChoice
  | cancelled
  | invalidPhone
  | nameRequired
  | invalidEmail
  | noneFound
  | found (res : List (String × Contact))
deriving DecidableEq

/-- search_contact, over the loaded store, the menu choice and the query. -/
def search_contact (contacts : Store) (choice q : String) : SearchOut :=
  if contacts.isEmpty then .noContacts
  else
    let c := pyStrip choice
    if !(c == "1" || c == "2" || c == "3" || c == "4") then .invalidChoice
    else if c == "4" then .cancelled
    else
      match find_matches contacts c q with
      | .err .invalidPhone => .invalidPhone
      | .err .nameRequired => .nameRequired
      | .err .invalidEmail => .invalidEmail
      | .ok res => if res.isEmpty then .noneFound else .found res

/-- Outcomes of delete_contact. -/
inductive DelOut where
  | noContacts
  | invalidChoice
  | cancelled
  | invalidPhone
  | nameRequired
  | invalidEmail
  | noneFound
  | notANumber
  | invalidSelection
  | ok (s : Store)
deriving DecidableEq

/-- delete_contact, over the loaded store, the menu choice, the query, the
confirmation answer (single match) and the parsed selection (several matches;
none models a non-numeric line, i.e. a ValueError from int). -/
def delete_contact (contacts : Store) (choice q confirm : String)
    (sel : Option Nat) : DelOut :=
  if contacts.isEmpty then .noContacts
  else
    let c := pyStrip choice
    if !(c == "1" || c == "2" || c == "3" || c == "4") then .invalidChoice
    else if c == "4" then .cancelled
    else
      match find_matches contacts c q with
      | .err .invalidPhone => .invalidPhone
      | .err .nameRequired => .nameRequired
      | .err .invalidEmail => .invalidEmail
      | .ok ms =>
        match ms with
        | [] => .noneFound
        | [m] =>
          if pyLower (pyStrip confirm) == "yes" then .ok (erase_key contacts m.1)
          else .cancelled
        | m1 :: m2 :: rest =>
          match sel with
          | none => .notANumber
          | some s =>
            if 1 ≤ s ∧ s ≤ (m1 :: m2 :: rest).length then
              match (m1 :: m2 :: rest).get? (s - 1) with
              | some m => .ok (erase_key contacts m.1)
              | none => .invalidSelection
            else .invalidSelection

/-- Outcomes of update_contact. -/
inductive UpdOut where
  | noContacts
  | invalidChoice
  | cancelled
  | invalidPhone
  | nameRequired
  | invalidEmail
  | noneFound
  | notANumber
  | invalidSelection
  | duplicatePhone
  | keyError
  | ok (s : Store)
deriving DecidableEq

/-- The phone-field branch of update_contact: validate the new phone, fail
on a collision with a different existing key, else pop the selected key and
re-insert its contact under the new phone (at the end of the dict). -/
def update_phone_field (contacts : Store) (phoneSel newI : String) : UpdOut :=
  let newPhone := pyStrip newI
  if !is_valid_phone newPhone then .invalidPhone
  else if newPhone ∈ storeKeys contacts ∧ newPhone ≠ phoneSel then .duplicatePhone
  else
    match dict_pop contacts phoneSel with
    | some (v, rest) => .ok (rest ++ [(newPhone, v)])
    | none => .keyError

/-- The field-update stage of update_contact, after a contact was selected. -/
def update_fields (contacts : Store) (phoneSel fld newVal : String) : UpdOut :=
  let f := pyStrip fld
  if !(f == "1" || f == "2" || f == "3" || f == "4") then .invalidChoice
  else if f == "4" then .cancelled
  else if f == "1" then update_phone_field contacts phoneSel newVal
  else if f == "2" then
    let nn := pyStrip newVal
    if nn == "" then .nameRequired
    else .ok (set_name_field contacts phoneSel (pyTitle nn))
  else
    let ne := pyStrip newVal
    if ne != "" && !is_valid_email ne then .invalidEmail
    else .ok (set_email_field contacts phoneSel ne)

/-- update_contact, over the loaded store, the find choice and query, the
parsed selection among several matches, the field choice and the new value. -/
def update_contact (contacts : Store) (ch q : String) (sel : Option Nat)
    (fld newVal : String) : UpdOut :=
  if contacts.isEmpty then .noContacts
  else
    let c := pyStrip ch
    if !(c == "1" || c == "2" || c == "3" || c == "4") then .invalidChoice
    else if c == "4" then .cancelled
    else
      match find_matches contacts c q with
      | .err .invalidPhone => .invalidPhone
      | .err .nameRequired => .nameRequired
      | .err .invalidEmail => .invalidEmail
      | .ok ms =>
        match ms with
        | [] => .noneFound
        | [m] => update_fields contacts m.1 fld newVal
        | m1 :: m2 :: rest =>
          match sel with
          | none => .notANumber
          | some s =>
            if 1 ≤ s ∧ s ≤ (m1 :: m2 :: rest).length then
              match (m1 :: m2 :: rest).get? (s - 1) with
              | some m => update_fields contacts m.1 fld newVal
              | none => .invalidSelection
            else .invalidSelection

/-- The sort key of list_contacts: the lowercased name. -/
def nameKey (pc : String × Contact) : String := pyLower pc.2.name

/-- Lexicographic comparison of character lists by code point, as Python
compares strings. -/
def lexLe : List Char → List Char → Bool
  | [], _ => true
  | _ :: _, [] => false
  | a :: as, b :: bs => decide (a < b) || (a == b && lexLe as bs)

/-- The comparison underlying sorted(..., key=lambda kv: kv[1].get("name","").lower()). -/
def keyLe (x y : String × Contact) : Bool :=
  lexLe (nameKey x).data (nameKey y).data

/-- Stable insertion: the new element goes in front of the first element
whose key is not smaller. -/
def insSorted (x : String × Contact) :
    List (String × Contact) → List (String × Contact)
  | [] => [x]
  | y :: ys => if keyLe x y then x :: y :: ys else y :: insSorted x ys

/-- The ordered item sequence of list_contacts.  Python sorted is a stable
ascending sort, and a stable ascending sort of a sequence under a total
transitive comparison is unique, so stable insertion sort computes it. -/
def list_contacts : Store → List (String × Contact)
  | [] => []
  | x :: xs => insSorted x (list_contacts xs)

/-- clear_all_contacts persists the empty store. -/
def clear_all_contacts : Store := []

end ContactsBook

namespace ContactsBook

/-! ### Helper lemmas on stripping -/

lemma dropWhile_dropWhile (p : α → Bool) (l : List α) :
    (l.dropWhile p).dropWhile p = l.dropWhile p := by
  induction l with
  | nil => rfl
  | cons a t ih =>
    by_cases h : p a
    · rw [List.dropWhile_cons, if_pos h, ih]
    · rw [List.dropWhile_cons, if_neg h, List.dropWhile_cons, if_neg h]

lemma dropWhile_head_false (p : α → Bool) (l : List α) (a : α) (t : List α)
    (h : l.dropWhile p = a :: t) : p a = false := by
  induction l with
  | nil => simp at h
  | cons x xs ih =>
    rw [List.dropWhile_cons] at h
    by_cases hx : p x
    · rw [if_pos hx] at h; exact ih h
    · rw [if_neg hx] at h
      cases h
      simpa using hx

lemma dropWhile_append_last (p : α → Bool) (a : α) (ha : p a = false) (xs : List α) :
    ∃ ys, (xs ++ [a]).dropWhile p = ys ++ [a] := by
  induction xs with
  | nil =>
    refine ⟨[], ?_⟩
    rw [List.nil_append, List.dropWhile_cons, if_neg (by simp [ha])]
  | cons x t ih =>
    by_cases hx : p x
    · obtain ⟨ys, hys⟩ := ih
      exact ⟨ys, by rw [List.cons_append, List.dropWhile_cons, if_pos hx, hys]⟩
    · exact ⟨x :: t, by rw [List.cons_append, List.dropWhile_cons, if_neg hx]⟩

lemma stripList_idem (l : List Char) : stripList (stripList l) = stripList l := by
  unfold stripList
  cases hm : l.dropWhile pySpace with
  | nil => simp
  | cons a t =>
    have ha : pySpace a = false := dropWhile_head_false _ _ _ _ hm
    have hrev : (a :: t).reverse = t.reverse ++ [a] := by simp
    rw [hrev]
    obtain ⟨ys, hys⟩ := dropWhile_append_last pySpace a ha t.reverse
    rw [hys]
    have h1 : (ys ++ [a]).reverse = a :: ys.reverse := by simp
    rw [h1]
    rw [List.dropWhile_cons, if_neg (by simp [ha])]
    rw [← h1, List.reverse_reverse]
    rw [← hys, dropWhile_dropWhile, hys]

lemma pyStrip_idem (s : String) : pyStrip (pyStrip s) = pyStrip s := by
  show String.mk (stripList (stripList s.data)) = String.mk (stripList s.data)
  rw [stripList_idem]

/-! ### Helper lemmas on the phone regex -/

lemma matchDigits_some (n : Nat) :
    ∀ (cs rest : List Char), matchDigits n cs = some rest ↔
      ∃ ds : List Char, cs = ds ++ rest ∧ ds.length = n ∧ ds.all Char.isDigit = true := by
  induction n with
  | zero =>
    intro cs rest
    constructor
    · intro h
      refine ⟨[], ?_, rfl, rfl⟩
      simpa [matchDigits] using h
    · rintro ⟨ds, hcat, hlen, -⟩
      rw [List.length_eq_zero] at hlen
      subst hlen
      simpa [matchDigits] using hcat
  | succ n ih =>
    intro cs rest
    cases cs with
    | nil =>
      simp only [matchDigits]
      constructor
      · intro h; cases h
      · rintro ⟨ds, hcat, hlen, -⟩
        have : ds = [] ∧ rest = [] := by
          constructor
          · cases ds with
            | nil => rfl
            | cons d dt => cases hcat
          · cases ds with
            | nil => simpa using hcat.symm
            | cons d dt => cases hcat
        rw [this.1] at hlen
        cases hlen
    | cons c cs2 =>
      by_cases hc : c.isDigit
      · rw [show matchDigits (n + 1) (c :: cs2) = matchDigits n cs2 from by
          simp [matchDigits, hc]]
        rw [ih cs2 rest]
        constructor
        · rintro ⟨ds, hcat, hlen, hall⟩
          exact ⟨c :: ds, by simp [hcat], by simp [hlen], by simp [hall, hc]⟩
        · rintro ⟨ds, hcat, hlen, hall⟩
          cases ds with
          | nil => cases hlen
          | cons d dt =>
            have hd : d = c := by
              have := hcat
              simp at this
              exact this.1.symm
            subst hd
            have hcat2 : cs2 = dt ++ rest := by
              simpa using hcat
            refine ⟨dt, hcat2, by simpa using hlen, ?_⟩
            simp only [List.all_cons, Bool.and_eq_true] at hall
            exact hall.2
      · rw [show matchDigits (n + 1) (c :: cs2) = none from by
          simp [matchDigits, hc]]
        constructor
        · intro h; cases h
        · rintro ⟨ds, hcat, hlen, hall⟩
          cases ds with
          | nil => cases hlen
          | cons d dt =>
            have hd : d = c := by
              have := hcat
              simp at this
              exact this.1.symm
            subst hd
            simp only [List.all_cons, Bool.and_eq_true] at hall
            exact absurd hall.1 hc

lemma valid_phone_ne_empty {p : String} (hp : is_valid_phone p = true) : p ≠ "" := by
  intro h
  rw [h] at hp
  exact absurd hp (by decide)

/-! ### Helper lemmas on persistence -/

lemma load_save (S : Store) :
    safe_load_contacts (safe_save_contacts S) = .ok (storeJsonFields S) := by
  cases S with
  | nil => rfl
  | cons hd tl => rfl

lemma storeJsonFields_injective : Function.Injective storeJsonFields := by
  apply List.map_injective_iff.mpr
  rintro ⟨pa, na, ea⟩ ⟨pb, nb, eb⟩ h
  simp only [contactJson, Prod.mk.injEq, Json.obj.injEq, List.cons.injEq,
    Json.str.injEq, and_true] at h
  obtain ⟨h1, h2, h3⟩ := h
  simp [h1, h2, h3]

/-! ### Helper lemmas on add and search -/

lemma add_contact_ok (S : Store) (n p e : String)
    (hn : pyStrip n ≠ "")
    (hp : is_valid_phone (pyStrip p) = true)
    (hnew : pyStrip p ∉ storeKeys S)
    (he : pyStrip e = "" ∨ is_valid_email (pyStrip e) = true) :
    add_contact S n p e =
      .ok (S ++ [(pyStrip p, ⟨pyTitle (pyStrip n), pyStrip e⟩)]) := by
  have h1 : (pyStrip n == "") = false := beq_eq_false_iff_ne.mpr hn
  have h2 : (pyStrip p == "") = false := beq_eq_false_iff_ne.mpr (valid_phone_ne_empty hp)
  have h3 : (pyStrip e != "" && !is_valid_email (pyStrip e)) = false := by
    rcases he with he | he
    · simp [he]
    · simp [he]
  simp only [add_contact, h1, h2, h3, hp, hnew, Bool.not_true, Bool.false_eq_true,
    if_false, if_true, Bool.not_false, ite_false, ite_true]
  rw [pyStrip_idem]

lemma filter_key_nil (S : Store) (q : String) (h : q ∉ storeKeys S) :
    S.filter (fun pc => pc.1 == q) = [] := by
  rw [List.filter_eq_nil_iff]
  intro pc hpc
  simp only [beq_iff_eq]
  intro hq
  exact h (hq ▸ List.mem_map_of_mem (fun x => x.1) hpc)

lemma find_matches_phone (S : Store) (q : String)
    (hq : is_valid_phone (pyStrip q) = true) :
    find_matches S "1" q = .ok (S.filter fun pc => pc.1 == pyStrip q) := by
  simp [find_matches, hq]

lemma search_by_phone (S : Store) (q : String)
    (hne : S.isEmpty = false)
    (hq : is_valid_phone (pyStrip q) = true) :
    search_contact S "1" q =
      (if (S.filter fun pc => pc.1 == pyStrip q).isEmpty then .noneFound
       else .found (S.filter fun pc => pc.1 == pyStrip q)) := by
  have hstr : pyStrip "1" = "1" := rfl
  simp only [search_contact, hne, Bool.false_eq_true, if_false, hstr,
    find_matches_phone S q hq]
  simp

/-! ### Helper lemmas on the dict operations used by update -/

lemma lookup_not_mem (S : Store) (k : String) (h : k ∉ storeKeys S) :
    lookupStore S k = none := by
  induction S with
  | nil => rfl
  | cons hd tl ih =>
    obtain ⟨k0, v⟩ := hd
    rw [lookupStore]
    rw [if_neg ?_]
    · exact ih fun hm => h (by simp [storeKeys] at hm ⊢; exact Or.inr hm)
    · intro hEq
      exact h (by simp [storeKeys, hEq])

lemma dict_pop_eq (S : Store) (p : String) (c : Contact)
    (h : lookupStore S p = some c) :
    dict_pop S p = some (c, erase_key S p) := by
  induction S with
  | nil => cases h
  | cons hd tl ih =>
    obtain ⟨k0, v⟩ := hd
    by_cases hk : k0 = p
    · rw [lookupStore, if_pos hk] at h
      injection h with h2
      rw [dict_pop, if_pos hk, erase_key, if_pos hk, h2]
    · rw [lookupStore, if_neg hk] at h
      rw [dict_pop, if_neg hk, erase_key, if_neg hk, ih h]

lemma lookup_erase_ne (S : Store) (p k : String) (h : k ≠ p) :
    lookupStore (erase_key S p) k = lookupStore S k := by
  induction S with
  | nil => rfl
  | cons hd tl ih =>
    obtain ⟨k0, v⟩ := hd
    by_cases hk : k0 = p
    · rw [erase_key, if_pos hk, lookupStore, if_neg (by rw [hk]; exact fun hh => h hh.symm)]
    · rw [erase_key, if_neg hk]
      by_cases hk2 : k0 = k
      · rw [lookupStore, if_pos hk2, lookupStore, if_pos hk2]
      · rw [lookupStore, if_neg hk2, lookupStore, if_neg hk2, ih]

lemma lookup_erase_self (S : Store) (p : String)
    (hnd : (storeKeys S).Nodup) :
    lookupStore (erase_key S p) p = none := by
  induction S with
  | nil => rfl
  | cons hd tl ih =>
    obtain ⟨k0, v⟩ := hd
    have hnd2 : (storeKeys tl).Nodup := by
      simpa [storeKeys] using hnd.of_cons
    by_cases hk : k0 = p
    · rw [erase_key, if_pos hk]
      apply lookup_not_mem
      intro hm
      rw [storeKeys] at hnd
      simp only [List.map_cons, List.nodup_cons] at hnd
      exact hnd.1 (hk ▸ hm)
    · rw [erase_key, if_neg hk, lookupStore, if_neg hk]
      exact ih hnd2

lemma lookup_append_some (xs ys : Store) (k : String) (v : Contact)
    (h : lookupStore xs k = some v) :
    lookupStore (xs ++ ys) k = some v := by
  induction xs with
  | nil => cases h
  | cons hd tl ih =>
    obtain ⟨k0, v0⟩ := hd
    by_cases hk : k0 = k
    · rw [lookupStore, if_pos hk] at h
      rw [List.cons_append, lookupStore, if_pos hk]
      exact h
    · rw [lookupStore, if_neg hk] at h
      rw [List.cons_append, lookupStore, if_neg hk]
      exact ih h

lemma lookup_append_none (xs ys : Store) (k : String)
    (h : lookupStore xs k = none) :
    lookupStore (xs ++ ys) k = lookupStore ys k := by
  induction xs with
  | nil => rfl
  | cons hd tl ih =>
    obtain ⟨k0, v0⟩ := hd
    by_cases hk : k0 = k
    · rw [lookupStore, if_pos hk] at h
      cases h
    · rw [lookupStore, if_neg hk] at h
      rw [List.cons_append, lookupStore, if_neg hk]
      exact ih h

/-! ### Helper lemmas on the listing order -/

lemma lexLe_refl (l : List Char) : lexLe l l = true := by
  induction l with
  | nil => rfl
  | cons a t ih => simp [lexLe, ih]

lemma lexLe_total (a b : List Char) : lexLe a b = true ∨ lexLe b a = true := by
  induction a generalizing b with
  | nil => exact Or.inl rfl
  | cons x xs ih =>
    cases b with
    | nil => exact Or.inr rfl
    | cons y ys =>
      rcases lt_trichotomy x y with hxy | hxy | hxy
      · exact Or.inl (by simp [lexLe, hxy])
      · subst hxy
        rcases ih ys with h | h
        · exact Or.inl (by simp [lexLe, h])
        · exact Or.inr (by simp [lexLe, h])
      · exact Or.inr (by simp [lexLe, hxy])

lemma lexLe_trans (a b c : List Char) (hab : lexLe a b = true)
    (hbc : lexLe b c = true) : lexLe a c = true := by
  induction a generalizing b c with
  | nil => rfl
  | cons x xs ih =>
    cases b with
    | nil => cases hab
    | cons y ys =>
      cases c with
      | nil => cases hbc
      | cons z zs =>
        simp only [lexLe, Bool.or_eq_true, Bool.and_eq_true, decide_eq_true_eq,
          beq_iff_eq] at hab hbc ⊢
        rcases hab with hab | ⟨hab, hab2⟩
        · rcases hbc with hbc | ⟨hbc, hbc2⟩
          · exact Or.inl (lt_trans hab hbc)
          · exact Or.inl (hbc ▸ hab)
        · subst hab
          rcases hbc with hbc | ⟨hbc, hbc2⟩
          · exact Or.inl hbc
          · exact Or.inr ⟨hbc, ih ys zs hab2 hbc2⟩

lemma keyLe_total (x y : String × Contact) : keyLe x y = true ∨ keyLe y x = true :=
  lexLe_total _ _

lemma keyLe_trans {x y z : String × Contact} (h1 : keyLe x y = true)
    (h2 : keyLe y z = true) : keyLe x z = true :=
  lexLe_trans _ _ _ h1 h2

lemma keyLe_of_eq {x y : String × Contact} (h : nameKey x = nameKey y) :
    keyLe x y = true := by
  unfold keyLe
  rw [h]
  exact lexLe_refl _

lemma perm_insSorted (x : String × Contact) (l : List (String × Contact)) :
    (insSorted x l).Perm (x :: l) := by
  induction l with
  | nil => exact List.Perm.refl _
  | cons y ys ih =>
    rw [insSorted]
    by_cases h : keyLe x y = true
    · rw [if_pos h]
    · rw [if_neg h]
      exact (ih.cons y).trans (List.Perm.swap x y ys)

lemma perm_list_contacts (S : Store) : (list_contacts S).Perm S := by
  induction S with
  | nil => exact List.Perm.refl _
  | cons x xs ih =>
    rw [list_contacts]
    exact (perm_insSorted x (list_contacts xs)).trans (ih.cons x)

lemma pairwise_insSorted (x : String × Contact) (l : List (String × Contact))
    (h : l.Pairwise fun a b => keyLe a b = true) :
    (insSorted x l).Pairwise fun a b => keyLe a b = true := by
  induction l with
  | nil => exact List.Pairwise.cons (by simp) List.Pairwise.nil
  | cons y ys ih =>
    rw [List.pairwise_cons] at h
    obtain ⟨hy, hys⟩ := h
    rw [insSorted]
    by_cases hxy : keyLe x y = true
    · rw [if_pos hxy, List.pairwise_cons]
      refine ⟨?_, List.pairwise_cons.mpr ⟨hy, hys⟩⟩
      intro z hz
      rcases List.mem_cons.mp hz with rfl | hz
      · exact hxy
      · exact keyLe_trans hxy (hy z hz)
    · rw [if_neg hxy, List.pairwise_cons]
      refine ⟨?_, ih hys⟩
      intro z hz
      rcases List.mem_cons.mp ((perm_insSorted x ys).mem_iff.mp hz) with rfl | hz
      · rcases keyLe_total z y with h | h
        · exact absurd h hxy
        · exact h
      · exact hy z hz

lemma pairwise_list_contacts (S : Store) :
    (list_contacts S).Pairwise fun a b => keyLe a b = true := by
  induction S with
  | nil => simp [list_contacts]
  | cons x xs ih =>
    rw [list_contacts]
    exact pairwise_insSorted x _ ih

lemma filter_insSorted (x : String × Contact) (l : List (String × Contact))
    (k : String) :
    (insSorted x l).filter (fun pc => nameKey pc == k) =
      if nameKey x == k then x :: l.filter (fun pc => nameKey pc == k)
      else l.filter (fun pc => nameKey pc == k) := by
  induction l with
  | nil =>
    by_cases h : (nameKey x == k) = true
    · simp [insSorted, List.filter_cons, h]
    · simp [insSorted, List.filter_cons, h]
  | cons y ys ih =>
    rw [insSorted]
    by_cases hxy : keyLe x y = true
    · rw [if_pos hxy]
      by_cases hx : (nameKey x == k) = true
      · simp [List.filter_cons, hx]
      · simp [List.filter_cons, hx]
    · rw [if_neg hxy]
      by_cases hx : (nameKey x == k) = true
      · have hy : (nameKey y == k) = false := by
          rw [beq_iff_eq] at hx
          rw [beq_eq_false_iff_ne]
          intro hyk
          exact hxy (keyLe_of_eq (by rw [hx, hyk]))
        simp [List.filter_cons, hx, hy, ih]
      · simp [List.filter_cons, hx, ih]

lemma filter_list_contacts (S : Store) (k : String) :
    (list_contacts S).filter (fun pc => nameKey pc == k) =
      S.filter (fun pc => nameKey pc == k) := by
  induction S with
  | nil => rfl
  | cons x xs ih =>
    rw [list_contacts, filter_insSorted]
    by_cases hx : (nameKey x == k) = true
    · simp [List.filter_cons, hx, ih]
    · simp [List.filter_cons, hx, ih]

end ContactsBook

namespace ContactsBook

/-! ### Claim theorems -/

/-- Claim C1.  The claim states that every non-empty query satisfying
is_valid_email proceeds to scan the store when searching, deleting or
updating by email.  The source gate is: not is_valid_email(q) or not
q == "", which is true for every non-empty q, so the code rejects the
well-formed non-empty query a-at-b.com with an invalid-email error in all
three operations, contradicting the claim (and the stated intent of only
rejecting queries that are neither empty nor well-formed). -/
theorem C1_email_query_rejected :
    is_valid_email "a@b.com" = true ∧
    ("a@b.com" : String) ≠ "" ∧
    search_contact [("5551234567", Contact.mk "John Doe" "a@b.com")] "3" "a@b.com"
      = SearchOut.invalidEmail ∧
    delete_contact [("5551234567", Contact.mk "John Doe" "a@b.com")] "3" "a@b.com" "yes" none
      = DelOut.invalidEmail ∧
    update_contact [("5551234567", Contact.mk "John Doe" "a@b.com")] "3" "a@b.com" none "3" "x@y.zz"
      = UpdOut.invalidEmail := by decide

/-- Claim C2, counterexample.  The claim states is_valid_phone(p) is true iff
p has length exactly 10 and every character is a decimal digit; the string of
ten digits followed by a newline is accepted by the regex (the dollar anchor
matches before a final newline) while having length 11 and a non-digit
character. -/
theorem C2_counterexample :
    is_valid_phone "0123456789\n" = true ∧
    ¬ (("0123456789\n" : String).data.length = 10 ∧
        ("0123456789\n" : String).data.all Char.isDigit = true) := by decide

/-- Claim C2, amended.  is_valid_phone(p) is true iff p consists of exactly
ten decimal digits, or of exactly ten decimal digits followed by one final
newline character. -/
theorem C2_phone_characterization (p : String) :
    is_valid_phone p = true ↔
      (p.data.length = 10 ∧ p.data.all Char.isDigit = true) ∨
        (p.data.length = 11 ∧ (p.data.take 10).all Char.isDigit = true ∧
          p.data.drop 10 = ['\n']) := by
  unfold is_valid_phone
  cases h : matchDigits 10 p.data with
  | none =>
    simp only [Bool.false_eq_true, false_iff]
    rintro (⟨hlen, hall⟩ | ⟨hlen, hall, hdrop⟩)
    · have : matchDigits 10 p.data = some [] := by
        rw [matchDigits_some]
        exact ⟨p.data, by simp, hlen, hall⟩
      rw [h] at this; cases this
    · have : matchDigits 10 p.data = some ['\n'] := by
        rw [matchDigits_some]
        refine ⟨p.data.take 10, ?_, ?_, hall⟩
        · rw [← hdrop]; simp
        · simp [List.length_take, hlen]
      rw [h] at this; cases this
  | some rest =>
    rw [matchDigits_some] at h
    obtain ⟨ds, hcat, hlen, hall⟩ := h
    have htake : p.data.take 10 = ds := by
      rw [hcat, ← hlen, List.take_left]
    have hdrop : p.data.drop 10 = rest := by
      rw [hcat, ← hlen, List.drop_left]
    constructor
    · intro hb
      rcases Bool.or_eq_true _ _ |>.mp hb with h1 | h1
      · left
        have hrest : rest = [] := by simpa using h1
        subst hrest
        constructor
        · simp [hcat, hlen]
        · simpa [hcat] using hall
      · right
        have hrest : rest = ['\n'] := by simpa using h1
        subst hrest
        refine ⟨by simp [hcat, hlen], ?_, hdrop⟩
        rw [htake]; exact hall
    · rintro (⟨hl, ha⟩ | ⟨hl, ha, hd⟩)
      · have : rest = [] := by
          have := congrArg List.length hcat
          simp [hl, hlen] at this
          exact this
        simp [this]
      · have : rest = ['\n'] := by rw [← hdrop, hd]
        simp [this]

/-- Claim C2, witness: the characterization applied at a concrete phone. -/
theorem C2_witness : is_valid_phone "0123456789" = true :=
  (C2_phone_characterization "0123456789").mpr (Or.inl (by decide))

/-- Claim C3, counterexample.  A persisted file whose bytes are not valid
UTF-8 makes safe_load_contacts raise (UnicodeDecodeError is caught by
neither json.JSONDecodeError nor IOError), instead of returning the empty
store as the claim demands for every persisted-file state. -/
theorem C3_counterexample :
    safe_load_contacts FileState.notUtf8 = LoadResult.raised ∧
    LoadResult.raised ≠ LoadResult.ok [] :=
  ⟨rfl, fun h => LoadResult.noConfusion h⟩

/-- Claim C3, amended.  Load returns the empty store when the file is
missing, the read raises IOError, or the text is malformed JSON; it returns
the parsed mapping (this includes non-mapping parse results collapsing to
the empty store); but for file content that is not valid UTF-8 the exception
propagates to the caller. -/
theorem C3_load_cases :
    safe_load_contacts .missing = .ok [] ∧
    safe_load_contacts .ioError = .ok [] ∧
    safe_load_contacts .badJson = .ok [] ∧
    (∀ fields : List (String × Json),
        safe_load_contacts (.jsonValue (.obj fields)) = .ok fields) ∧
    (∀ j : Json, (∀ fields, j ≠ .obj fields) →
        safe_load_contacts (.jsonValue j) = .ok []) ∧
    safe_load_contacts .notUtf8 = .raised := by
  refine ⟨rfl, rfl, rfl, ?_, ?_, rfl⟩
  · intro fields
    cases fields with
    | nil => rfl
    | cons f fs => rfl
  · intro j hj
    cases j with
    | null => rfl
    | bool b => cases b <;> rfl
    | num n =>
      by_cases hn : n = 0
      · subst hn; rfl
      · simp [safe_load_contacts, Json.truthy, hn]
    | str s =>
      by_cases hs : s = ""
      · subst hs; rfl
      · simp [safe_load_contacts, Json.truthy, hs]
    | arr l => cases l <;> rfl
    | obj fields => exact absurd rfl (hj fields)

/-- Claim C3, witness: a list-valued file collapses to the empty store. -/
theorem C3_witness : safe_load_contacts (.jsonValue (Json.arr [])) = .ok [] :=
  C3_load_cases.2.2.2.2.1 (Json.arr []) (fun _ h => Json.noConfusion h)

/-- Claim C4.  Saving a store and loading the resulting file yields exactly
the representation of that store and of no other store: the loaded dict
equals the saved one. -/
theorem C4_save_load_roundtrip (S T : Store) :
    safe_load_contacts (safe_save_contacts S) = LoadResult.ok (storeJsonFields T) ↔
      S = T := by
  constructor
  · intro h
    rw [load_save] at h
    injection h with h2
    exact storeJsonFields_injective h2
  · rintro rfl
    exact load_save S

/-- Claim C4, witness: the round trip at a concrete store. -/
theorem C4_witness :
    safe_load_contacts (safe_save_contacts [("5551234567", Contact.mk "John Doe" "")]) =
      LoadResult.ok (storeJsonFields [("5551234567", Contact.mk "John Doe" "")]) :=
  (C4_save_load_roundtrip _ _).mpr rfl

/-- Claim C5.  For a valid new contact (non-blank name, valid fresh phone,
empty or well-formed email), add succeeds, and searching the resulting store
by that phone returns exactly one match, the inserted contact: title-cased
name and the email as entered. -/
theorem C5_add_then_find (S : Store) (n p e : String)
    (hn : pyStrip n ≠ "")
    (hp : is_valid_phone (pyStrip p) = true)
    (hnew : pyStrip p ∉ storeKeys S)
    (he : pyStrip e = "" ∨ is_valid_email (pyStrip e) = true) :
    add_contact S n p e =
      .ok (S ++ [(pyStrip p, ⟨pyTitle (pyStrip n), pyStrip e⟩)]) ∧
    search_contact (S ++ [(pyStrip p, ⟨pyTitle (pyStrip n), pyStrip e⟩)]) "1" p =
      .found [(pyStrip p, ⟨pyTitle (pyStrip n), pyStrip e⟩)] := by
  refine ⟨add_contact_ok S n p e hn hp hnew he, ?_⟩
  have hne : (S ++ [(pyStrip p, (⟨pyTitle (pyStrip n), pyStrip e⟩ : Contact))]).isEmpty
      = false := by
    cases S <;> rfl
  rw [search_by_phone _ p hne hp]
  have hfilter :
      ((S ++ [(pyStrip p, (⟨pyTitle (pyStrip n), pyStrip e⟩ : Contact))]).filter
        fun pc => pc.1 == pyStrip p) =
        [(pyStrip p, (⟨pyTitle (pyStrip n), pyStrip e⟩ : Contact))] := by
    rw [List.filter_append, filter_key_nil S _ hnew]
    simp
  rw [hfilter]
  rfl

/-- Claim C5, witness at a concrete store and inputs. -/
theorem C5_witness :
    add_contact [("1112223334", Contact.mk "Ann" "")] "bob marley" " 5551234567 " "b@ex.com" =
      .ok ([("1112223334", Contact.mk "Ann" "")] ++
        [(pyStrip " 5551234567 ", ⟨pyTitle (pyStrip "bob marley"), pyStrip "b@ex.com"⟩)]) ∧
    search_contact ([("1112223334", Contact.mk "Ann" "")] ++
        [(pyStrip " 5551234567 ", ⟨pyTitle (pyStrip "bob marley"), pyStrip "b@ex.com"⟩)])
        "1" " 5551234567 " =
      .found [(pyStrip " 5551234567 ", ⟨pyTitle (pyStrip "bob marley"), pyStrip "b@ex.com"⟩)] :=
  C5_add_then_find [("1112223334", Contact.mk "Ann" "")] "bob marley" " 5551234567 " "b@ex.com"
    (by decide) (by decide) (by decide) (Or.inr (by decide))

/-- Claim C6, counterexample.  With a blank name and a duplicate phone, add
fails with the empty-name error, not with the duplicate-phone error the
claim asserts for every add with a phone already present. -/
theorem C6_counterexample :
    "5551234567" ∈ storeKeys [("5551234567", Contact.mk "John Doe" "")] ∧
    pyStrip "5551234567" = "5551234567" ∧
    add_contact [("5551234567", Contact.mk "John Doe" "")] "" "5551234567" "x@y.zz"
      = .err .EmptyName ∧
    AddResult.err AddErr.EmptyName ≠ AddResult.err AddErr.DuplicatePhone := by decide

/-- Claim C6, amended.  If the (trimmed) phone is already a key of the store,
add never succeeds (so nothing is inserted, modified or persisted); and it
fails precisely with DuplicatePhone whenever the trimmed name is non-blank
and the phone is well-formed, as every key of a valid store is; earlier
checks (empty name, empty or malformed phone) fire first otherwise. -/
theorem C6_duplicate_add_fails (S : Store) (n p e : String)
    (hk : pyStrip p ∈ storeKeys S) :
    (∃ err, add_contact S n p e = .err err) ∧
    (pyStrip n ≠ "" → is_valid_phone (pyStrip p) = true →
      add_contact S n p e = .err .DuplicatePhone) := by
  constructor
  · by_cases h1 : pyStrip n = ""
    · exact ⟨.EmptyName, by simp [add_contact, h1]⟩
    · by_cases h2 : pyStrip p = ""
      · exact ⟨.EmptyPhone, by simp [add_contact, h1, h2]⟩
      · by_cases h3 : is_valid_phone (pyStrip p) = true
        · exact ⟨.DuplicatePhone, by simp [add_contact, h1, h2, h3, hk]⟩
        · refine ⟨.InvalidPhone, ?_⟩
          have h3f : is_valid_phone (pyStrip p) = false := by
            cases h : is_valid_phone (pyStrip p)
            · rfl
            · exact absurd h h3
          simp [add_contact, h1, h2, h3f]
  · intro hn hv
    have h2 : pyStrip p ≠ "" := valid_phone_ne_empty hv
    simp [add_contact, hn, h2, hv, hk]

/-- Claim C6, witness at a concrete duplicate add. -/
theorem C6_witness :
    add_contact [("5551234567", Contact.mk "John Doe" "")] "ann" "5551234567" "" =
      .err .DuplicatePhone :=
  (C6_duplicate_add_fails [("5551234567", Contact.mk "John Doe" "")] "ann" "5551234567" ""
    (by decide)).2 (by decide) (by decide)

/-- Claim C7.  For a selected contact with key p in a store with unique keys
and a well-formed new phone value: a collision with a different existing key
fails DuplicatePhone (the store is returned unchanged to the caller);
re-keying to p itself succeeds and preserves the key-to-contact mapping
(the entry moves to the end of the iteration order); and a fresh new phone
removes the old key and inserts the same contact under the new key. -/
theorem C7_update_phone_rekey (S : Store) (p : String) (c : Contact) (newI : String)
    (hnd : (storeKeys S).Nodup)
    (hc : lookupStore S p = some c)
    (hv : is_valid_phone (pyStrip newI) = true) :
    (pyStrip newI ∈ storeKeys S ∧ pyStrip newI ≠ p →
       update_phone_field S p newI = .duplicatePhone) ∧
    (pyStrip newI = p →
       update_phone_field S p newI = .ok (erase_key S p ++ [(p, c)]) ∧
       ∀ k, lookupStore (erase_key S p ++ [(p, c)]) k = lookupStore S k) ∧
    (pyStrip newI ∉ storeKeys S →
       update_phone_field S p newI = .ok (erase_key S p ++ [(pyStrip newI, c)])) := by
  refine ⟨?_, ?_, ?_⟩
  · intro hdup
    simp only [update_phone_field, hv, Bool.not_true, Bool.false_eq_true, if_false]
    rw [if_pos hdup]
  · intro hEq
    constructor
    · simp only [update_phone_field, hv, Bool.not_true, Bool.false_eq_true, if_false]
      rw [if_neg (by rintro ⟨-, hne⟩; exact hne hEq), dict_pop_eq S p c hc, hEq]
    · intro k
      by_cases hk : k = p
      · subst hk
        rw [lookup_append_none _ _ _ (lookup_erase_self S k hnd), hc]
        rw [lookupStore, if_pos rfl]
      · cases hl : lookupStore S k with
        | some v =>
          exact lookup_append_some _ _ _ _ ((lookup_erase_ne S p k hk).trans hl)
        | none =>
          rw [lookup_append_none _ _ _ ((lookup_erase_ne S p k hk).trans hl)]
          rw [lookupStore, if_neg (fun hh => hk hh.symm), lookupStore]
  · intro hnm
    simp only [update_phone_field, hv, Bool.not_true, Bool.false_eq_true, if_false]
    rw [if_neg (by rintro ⟨hm, -⟩; exact hnm hm), dict_pop_eq S p c hc]

/-- Claim C7, witness: the collision case at a concrete store. -/
theorem C7_witness :
    update_phone_field [("1111111111", Contact.mk "Ann" ""), ("2222222222", Contact.mk "Bea" "")]
      "1111111111" "2222222222" = .duplicatePhone :=
  (C7_update_phone_rekey
    [("1111111111", Contact.mk "Ann" ""), ("2222222222", Contact.mk "Bea" "")]
    "1111111111" (Contact.mk "Ann" "") "2222222222"
    (by decide) (by decide) (by decide)).1 ⟨by decide, by decide⟩

/-- Claim C8.  The listing order: list_contacts returns all pairs of the
store (a permutation), ordered ascending by the lowercased name, and stably:
restricted to any fixed lowercased name, the output preserves the original
iteration order; the concrete Bob/alice store lists alice first. -/
theorem C8_list_sorted_stable :
    (∀ S : Store,
        (list_contacts S).Perm S ∧
        ((list_contacts S).Pairwise fun a b => keyLe a b = true) ∧
        ∀ k : String,
          (list_contacts S).filter (fun pc => nameKey pc == k) =
            S.filter (fun pc => nameKey pc == k)) ∧
    list_contacts [("1111111111", Contact.mk "Bob" ""), ("2222222222", Contact.mk "alice" "")] =
      [("2222222222", Contact.mk "alice" ""), ("1111111111", Contact.mk "Bob" "")] :=
  ⟨fun S => ⟨perm_list_contacts S, pairwise_list_contacts S,
    fun k => filter_list_contacts S k⟩, by decide⟩

/-- Claim C9.  Every successful add appends exactly one entry, keyed by the
trimmed phone, whose name is the title-cased trimmed input and whose email is
the trimmed input stored verbatim; concretely, on the empty store, adding
john doe with phone 5551234567 and no email yields the single entry with
name John Doe and empty email. -/
theorem C9_add_title_case :
    (∀ (S : Store) (n p e : String) (S2 : Store),
        add_contact S n p e = .ok S2 →
          S2 = S ++ [(pyStrip p, ⟨pyTitle (pyStrip n), pyStrip e⟩)]) ∧
    add_contact [] "john doe" "5551234567" "" =
      .ok [("5551234567", Contact.mk "John Doe" "")] := by
  constructor
  · intro S n p e S2 h
    simp only [add_contact] at h
    split at h
    · cases h
    · split at h
      · cases h
      · split at h
        · cases h
        · split at h
          · cases h
          · split at h
            · cases h
            · injection h with h2
              rw [← h2, pyStrip_idem]
  · decide

/-- Claim C9, witness: the general shape applied at the concrete add. -/
theorem C9_witness :
    ([("5551234567", Contact.mk "John Doe" "")] : Store) =
      [] ++ [(pyStrip "5551234567", ⟨pyTitle (pyStrip "john doe"), pyStrip ""⟩)] :=
  C9_add_title_case.1 [] "john doe" "5551234567" "" _ (by decide)

/-- Claim C10.  On an empty store, search, delete and update return the
no-contacts outcome for every choice, query, confirmation and selection, so
no validation error is ever produced against an empty store. -/
theorem C10_empty_store_short_circuit :
    ∀ (choice q confirm : String) (sel : Option Nat) (fld newVal : String),
      search_contact [] choice q = .noContacts ∧
      delete_contact [] choice q confirm sel = .noContacts ∧
      update_contact [] choice q sel fld newVal = .noContacts :=
  fun _ _ _ _ _ _ => ⟨rfl, rfl, rfl⟩

end ContactsBook
